import Mathlib

/-!
Shallow embedding of the stock / sales core of the `Trabajo_Final` inventory
application (Django).  The embedded code is:

* `ventas/views.py`   : `VentaCreateView.post`, `VentaDeleteView.form_valid`
* `ventas/models.py`  : `Venta`, `ItemVenta` (including `ItemVenta.save`)
* `ventas/forms.py`   : `ItemVentaForm.clean_cantidad`
* `productos/views.py`: `MovimientoStockCreateView.form_valid`,
                        `AjusteStockView.form_valid`

Conventions of the embedding:

* `DecimalField` money amounts (`precio`, `precio_unitario`, `subtotal`,
  `total`) are modelled as exact integers (`Int`); decimal arithmetic in the
  source is exact, so the algebraic claims are unaffected.
* Database rows are lists; a product table is an association list keyed by
  primary key.  `Model.save()` on a fetched instance writes the instance's
  field values over the row with that key (this faithfully reproduces the
  stale-snapshot behaviour of saving an instance that was fetched earlier).
* Django form validation of the sale formset is embedded per line: forms
  flagged `DELETE` are skipped, untouched blank extra forms are skipped,
  partially filled forms fail the `required` validation, and complete lines
  run the `ModelChoiceField` lookup, `MinValueValidator(1)` and
  `ItemVentaForm.clean_cantidad` in the source's order.
* Primary keys for new `Venta` rows are allocated as `max existing pk + 1`,
  modelling Django's `AutoField` on the default SQLite backend (largest
  rowid + 1); `Venta.objects.latest('pk').pk` is the same maximum.
-/

namespace Inventario

/-- Product row (`productos.models.Producto`; the model file is not part of
the sources, fields are the ones used by the embedded views and §3 of the
design: name, non-negative unit price, integer stock). -/
structure Producto where
  nombre : String
  precio : Int
  stock : Int
deriving DecidableEq, Repr

/-- Stock movement row (`productos.models.MovimientoStock`; modelled from the
spec §3: product reference, direction, positive quantity, reason, actor). -/
inductive TipoMovimiento where
  | entrada
  | salida
deriving DecidableEq, Repr

structure MovimientoStock where
  producto : Nat
  tipo : TipoMovimiento
  cantidad : Int
  motivo : String
  usuario : String
deriving DecidableEq, Repr

/-- Sale row (`ventas.models.Venta`). -/
structure Venta where
  pk : Nat
  codigoVenta : String
  cliente : Nat
  total : Int
deriving DecidableEq, Repr

/-- Sale line row (`ventas.models.ItemVenta`). -/
structure ItemVenta where
  venta : Nat
  producto : Nat
  cantidad : Int
  precioUnitario : Int
  subtotal : Int
deriving DecidableEq, Repr

/-- The persistent store: product table (assoc list keyed by pk), customer
pk list, sale rows, sale-line rows, movement rows. -/
structure Store where
  productos : List (Nat × Producto)
  clientes : List Nat
  ventas : List Venta
  items : List ItemVenta
  movimientos : List MovimientoStock
deriving DecidableEq, Repr

/-- Row lookup by primary key (`Producto.objects.get(pk=...)`). -/
def lookupProducto : List (Nat × Producto) → Nat → Option Producto
  | [], _ => none
  | (k, v) :: rest, pid => if k = pid then some v else lookupProducto rest pid

/-- `producto.save()`: overwrite the row keyed `pid` with the in-memory
instance `p` (all fields, including a possibly stale stock snapshot). -/
def updateProducto (s : Store) (pid : Nat) (p : Producto) : Store :=
  { s with productos := s.productos.map fun kv => if kv.1 = pid then (kv.1, p) else kv }

/-! ### Sale code generation

`venta.codigo_venta = f"{Venta.CODIGO_PREFIJO}{(last_id + 1):06d}"` with
`CODIGO_PREFIJO = "VNT-"`.  The decimal zero-padded rendering of Python's
`f"{n:06d}"` is embedded with an explicit fuel-structural digit extraction. -/

/-- Little-endian decimal digits of `n` (empty for `n = 0`), with fuel. -/
def decDigits : Nat → Nat → List Nat
  | 0, _ => []
  | fuel + 1, n => if n = 0 then [] else n % 10 :: decDigits fuel (n / 10)

/-- Little-endian decimal digits of `n`. -/
def pyDigits (n : Nat) : List Nat := decDigits n n

/-- Little-endian digits padded with high zeros to width 6 (`%06d`). -/
def padDigits6 (n : Nat) : List Nat :=
  pyDigits n ++ List.replicate (6 - (pyDigits n).length) 0

/-- Decimal digit to its character. -/
def digitChar (d : Nat) : Char := Char.ofNat (48 + d)

/-- `f"VNT-{n:06d}"`. -/
def fmtCodigo (n : Nat) : String :=
  String.mk (['V', 'N', 'T', '-'] ++ ((padDigits6 n).reverse.map digitChar))

/-- `Venta.objects.latest('pk').pk`, and `0` when no sale exists
(the `Venta.objects.exists()` branch of the view). -/
def maxVentaPk : List Venta → Nat
  | [] => 0
  | v :: rest => max v.pk (maxVentaPk rest)

/-! ### Formset validation (`ItemVentaFormSet` over `ItemVentaForm`) -/

/-- One submitted line of the inline formset: the `DELETE` checkbox and the
(possibly blank) `producto` and `cantidad` fields. -/
structure LineInput where
  delete : Bool
  producto : Option Nat
  cantidad : Option Int
deriving DecidableEq, Repr

/-- Validation outcome of one line that passed the formset:
skipped because flagged `DELETE`, skipped because blank, or a cleaned item
carrying the `Producto` instance fetched at validation time (the snapshot
that the transaction loop later mutates and saves). -/
inductive CleanLine where
  | del
  | empty
  | item (pid : Nat) (p : Producto) (c : Int)
deriving DecidableEq, Repr

/-- Per-line form errors: a nonexistent product choice, a quantity below the
`MinValueValidator(1)` bound, the `clean_cantidad` stock check (carrying the
available stock that its message renders), or a required field left blank in
a form that was otherwise filled in. -/
inductive LineError where
  | invalidChoice
  | minValue
  | stockInsuf (disponible : Int)
  | required
deriving DecidableEq, Repr

/-- Message of `ItemVentaForm.clean_cantidad`:
`f"Stock insuficiente. Solo hay {producto.stock} unidades disponibles."` -/
def lineErrorMsg : LineError → String
  | .invalidChoice => "Seleccione una opcion valida."
  | .minValue => "Asegurese de que este valor es mayor o igual a 1."
  | .stockInsuf disponible =>
      "Stock insuficiente. Solo hay " ++ toString disponible ++ " unidades disponibles."
  | .required => "Este campo es obligatorio."

/-- Validation of one `ItemVentaForm` inside the formset.  Forms flagged
`DELETE` are not validated (`BaseFormSet.is_valid` skips them); blank extra
forms validate to empty cleaned data; partially filled forms fail the
`required` check; otherwise the `ModelChoiceField` lookup, the
`MinValueValidator(1)` on `cantidad` and `clean_cantidad`'s
`cantidad > producto.stock` check run in order. -/
def cleanLine (s : Store) (l : LineInput) : Except LineError CleanLine :=
  match l.delete, l.producto, l.cantidad with
  | true, _, _ => .ok .del
  | false, none, none => .ok .empty
  | false, some pid, some c =>
    match lookupProducto s.productos pid with
    | none => .error .invalidChoice
    | some p =>
      if c < 1 then .error .minValue
      else if p.stock < c then .error (.stockInsuf p.stock)
      else .ok (.item pid p c)
  | false, _, _ => .error .required

/-- All form errors of the submitted formset, in line order. -/
def formsetErrors (s : Store) (lines : List LineInput) : List LineError :=
  lines.filterMap fun l =>
    match cleanLine s l with
    | .error e => some e
    | .ok _ => none

/-- Cleaned data of the lines of a valid formset, in line order. -/
def cleanedLines (s : Store) (lines : List LineInput) : List CleanLine :=
  lines.filterMap fun l => (cleanLine s l).toOption

/-! ### Sale creation (`VentaCreateView.post`) -/

/-- Message of the in-transaction stock check of `VentaCreateView.post`. -/
def stockInsuficienteMsg (p : Producto) (c : Int) : String :=
  "Stock insuficiente para " ++ p.nombre ++ ". Disponible: " ++ toString p.stock ++
    ", Solicitado: " ++ toString c ++ "."

/-- The body of one loop iteration of `VentaCreateView.post` on a surviving
line: capture `precio_unitario = producto.precio`, compute the subtotal,
save the product with `stock -= cantidad` (a full-instance write of the
validation snapshot), and save the `ItemVenta` (whose `save()` writes
`subtotal = cantidad * precio_unitario`, the same value the view computed as
`precio_unitario * cantidad`). -/
def applyLineaVenta (pk : Nat) (st : Store) (pid : Nat) (p : Producto) (c : Int) : Store :=
  { updateProducto st pid { p with stock := p.stock - c } with
    items := st.items ++
      [{ venta := pk, producto := pid, cantidad := c,
         precioUnitario := p.precio, subtotal := c * p.precio }] }

/-- The item-processing loop of `VentaCreateView.post`: walks the cleaned
formset lines threading the store, the running `total_venta` and the
`items_procesados` counter.  `DELETE`-flagged and blank lines `continue`;
each surviving line re-checks `producto.stock < cantidad` on the validation
snapshot and then runs `applyLineaVenta`. -/
def processItems (pk : Nat) : Store → List CleanLine → Int → Nat →
    Except String (Store × Int × Nat)
  | st, [], t, k => .ok (st, t, k)
  | st, .del :: rest, t, k => processItems pk st rest t k
  | st, .empty :: rest, t, k => processItems pk st rest t k
  | st, .item pid p c :: rest, t, k =>
    if p.stock < c then .error (stockInsuficienteMsg p c)
    else processItems pk (applyLineaVenta pk st pid p c) rest (t + c * p.precio) (k + 1)

/-- `venta.delete()`: remove the sale row and (cascade) its line items. -/
def ventaCascadeDelete (s : Store) (pk : Nat) : Store :=
  { s with
    ventas := s.ventas.filter fun v => v.pk != pk
    items := s.items.filter fun it => it.venta != pk }

/-- `venta.save()` after `venta.total = total_venta`. -/
def updateVentaTotal (vs : List Venta) (pk : Nat) (t : Int) : List Venta :=
  vs.map fun v => if v.pk = pk then { v with total := t } else v

/-- Outcome of `VentaCreateView.post`: a redirect with the created sale's pk
and code, a re-render with form/formset errors, the "must contain at least
one product" warning, or the caught in-transaction stock exception. -/
inductive VentaOutcome where
  | created (pk : Nat) (codigo : String)
  | invalidForm (errs : List LineError)
  | ventaVacia
  | stockError (msg : String)
deriving DecidableEq, Repr

/-- The freshly allocated sale row: pk `max existing pk + 1` (AutoField on
SQLite), code `f"VNT-{last_id + 1:06d}"` with `last_id` the latest existing
pk, total initially 0. -/
def ventaNueva (s : Store) (clienteId : Nat) : Venta :=
  { pk := maxVentaPk s.ventas + 1, codigoVenta := fmtCodigo (maxVentaPk s.ventas + 1),
    cliente := clienteId, total := 0 }

/-- The transactional body of `VentaCreateView.post` (inside
`transaction.atomic()`): allocate the next pk and sale code, save the sale,
run the item loop; on the loop's exception every write is rolled back; if no
item was processed the sale is deleted again and the warning rendered;
otherwise the total is saved. -/
def ventaCreateTx (s : Store) (clienteId : Nat) (lines : List LineInput) :
    Store × VentaOutcome :=
  match processItems (ventaNueva s clienteId).pk
      { s with ventas := s.ventas ++ [ventaNueva s clienteId] } (cleanedLines s lines) 0 0 with
  | .error msg => (s, .stockError msg)
  | .ok (s2, total, count) =>
    if count = 0 then (ventaCascadeDelete s2 (ventaNueva s clienteId).pk, .ventaVacia)
    else ({ s2 with ventas := updateVentaTotal s2.ventas (ventaNueva s clienteId).pk total },
      .created (ventaNueva s clienteId).pk (ventaNueva s clienteId).codigoVenta)

/-- `VentaCreateView.post`: if the `VentaForm` (an existing customer) and the
formset validate, run the transactional body; otherwise re-render with the
errors and an unchanged store. -/
def ventaCreate (s : Store) (clienteId : Nat) (lines : List LineInput) :
    Store × VentaOutcome :=
  if s.clientes.contains clienteId && (formsetErrors s lines).isEmpty then
    ventaCreateTx s clienteId lines
  else
    (s, .invalidForm (formsetErrors s lines))

/-! ### Sale reversal (`VentaDeleteView.form_valid`) -/

inductive DeleteOutcome where
  | deleted (codigo : String)
  | notFound
deriving DecidableEq, Repr

/-- One step of the restore loop: `producto = item.producto` (a fresh fetch),
`producto.stock += item.cantidad`, `producto.save()`. -/
def restoreStockOfItem (st : Store) (it : ItemVenta) : Store :=
  match lookupProducto st.productos it.producto with
  | none => st
  | some p => updateProducto st it.producto { p with stock := p.stock + it.cantidad }

/-- `VentaDeleteView.form_valid`: resolve the sale (`get_object`, a missing
pk is a 404), credit back each line's quantity, then delete the sale with
its items. -/
def ventaDelete (s : Store) (pk : Nat) : Store × DeleteOutcome :=
  match s.ventas.find? (fun v => v.pk == pk) with
  | none => (s, .notFound)
  | some venta =>
    let s1 := (s.items.filter fun it => it.venta == pk).foldl restoreStockOfItem s
    (ventaCascadeDelete s1 pk, .deleted venta.codigoVenta)

/-! ### Stock movements (`MovimientoStockCreateView.form_valid`) -/

inductive MovOutcome where
  | success
  | formError (msg : String)
  | notFound
deriving DecidableEq, Repr

/-- `MovimientoStockCreateView.form_valid`.  The product is resolved by pk
(404 when missing).  Modelled from the spec: the `MovimientoStockForm` (not
among the sources) validates `cantidad` as a positive integer (§3 "quantity
(positive integer)", §4.1 "Preconditions: quantity > 0").  Then the view:
`entrada` adds the quantity; `salida` subtracts it when
`producto.stock >= cantidad` and otherwise adds the form error
"No hay stock suficiente" without touching anything; on success both the
product and the movement row are saved. -/
def movimientoCreate (s : Store) (pid : Nat) (tipo : TipoMovimiento)
    (cantidad : Int) (motivo usuario : String) : Store × MovOutcome :=
  match lookupProducto s.productos pid with
  | none => (s, .notFound)
  | some p =>
    if cantidad < 1 then (s, .formError (lineErrorMsg .minValue))
    else
      match tipo with
      | .entrada =>
        let s1 := updateProducto s pid { p with stock := p.stock + cantidad }
        ({ s1 with movimientos := s1.movimientos ++
            [{ producto := pid, tipo := .entrada, cantidad := cantidad,
               motivo := motivo, usuario := usuario }] }, .success)
      | .salida =>
        if p.stock ≥ cantidad then
          let s1 := updateProducto s pid { p with stock := p.stock - cantidad }
          ({ s1 with movimientos := s1.movimientos ++
              [{ producto := pid, tipo := .salida, cantidad := cantidad,
                 motivo := motivo, usuario := usuario }] }, .success)
        else (s, .formError "No hay stock suficiente")

/-! ### Stock adjustment (`AjusteStockView.form_valid`) -/

inductive AjusteOutcome where
  | actualizado
  | sinCambio
  | formError
  | notFound
deriving DecidableEq, Repr

/-- `AjusteStockView.form_valid`.  The product is resolved by pk (404 when
missing).  Modelled from the spec: the `AjusteStockForm` (not among the
sources) validates the target as a non-negative integer (§4.2
"`target_quantity` must be a non-negative integer; otherwise fails
validation").  Then the view computes `diferencia = nueva_cantidad -
producto.stock`; when nonzero it creates one movement (direction from the
sign, magnitude `abs(diferencia)`, reason falling back to "Ajuste de
stock") and saves `producto.stock = nueva_cantidad`; when zero it only
reports "El stock no ha cambiado". -/
def ajusteStock (s : Store) (pid : Nat) (nuevaCantidad : Int)
    (motivo usuario : String) : Store × AjusteOutcome :=
  match lookupProducto s.productos pid with
  | none => (s, .notFound)
  | some p =>
    if nuevaCantidad < 0 then (s, .formError)
    else
      let diferencia := nuevaCantidad - p.stock
      if diferencia = 0 then (s, .sinCambio)
      else
        let tipo : TipoMovimiento := if diferencia > 0 then .entrada else .salida
        let s1 : Store := { s with movimientos := s.movimientos ++
          [{ producto := pid, tipo := tipo, cantidad := |diferencia|,
             motivo := if motivo = "" then "Ajuste de stock" else motivo,
             usuario := usuario }] }
        (updateProducto s1 pid { p with stock := nuevaCantidad }, .actualizado)

end Inventario

namespace Inventario

/-! ## Decimal rendering: the sale-code format is injective -/

/-- Value of a little-endian digit list. -/
def undigits : List Nat → Nat := List.foldr (fun d acc => d + 10 * acc) 0

theorem undigits_nil : undigits [] = 0 := rfl

theorem undigits_cons (d : Nat) (l : List Nat) :
    undigits (d :: l) = d + 10 * undigits l := rfl

theorem undigits_decDigits : ∀ fuel n : Nat, n ≤ fuel → undigits (decDigits fuel n) = n := by
  intro fuel
  induction fuel with
  | zero =>
    intro n h
    have hn : n = 0 := Nat.le_zero.mp h
    subst hn
    rfl
  | succ fuel ih =>
    intro n h
    by_cases hn : n = 0
    · subst hn; rfl
    · have hdiv : n / 10 ≤ fuel := by
        have hlt : n / 10 < n := Nat.div_lt_self (Nat.pos_of_ne_zero hn) (by norm_num)
        omega
      simp only [decDigits, if_neg hn, undigits_cons, ih (n / 10) hdiv]
      exact Nat.mod_add_div n 10

theorem undigits_replicate_zero (k : Nat) : undigits (List.replicate k 0) = 0 := by
  induction k with
  | zero => rfl
  | succ k ih => simpa [List.replicate_succ, undigits_cons] using ih

theorem undigits_append_zeros (xs : List Nat) (k : Nat) :
    undigits (xs ++ List.replicate k 0) = undigits xs := by
  have h := undigits_replicate_zero k
  unfold undigits at h ⊢
  rw [List.foldr_append, h]

theorem undigits_padDigits6 (n : Nat) : undigits (padDigits6 n) = n := by
  unfold padDigits6
  rw [undigits_append_zeros]
  exact undigits_decDigits n n le_rfl

theorem decDigits_lt_ten : ∀ fuel n : Nat, ∀ d ∈ decDigits fuel n, d < 10 := by
  intro fuel
  induction fuel with
  | zero => intro n d hd; simp [decDigits] at hd
  | succ fuel ih =>
    intro n d hd
    by_cases hn : n = 0
    · subst hn; simp [decDigits] at hd
    · simp only [decDigits, if_neg hn, List.mem_cons] at hd
      rcases hd with h | h
      · subst h; exact Nat.mod_lt _ (by norm_num)
      · exact ih _ _ h

theorem padDigits6_lt_ten (n : Nat) : ∀ d ∈ padDigits6 n, d < 10 := by
  intro d hd
  unfold padDigits6 pyDigits at hd
  rw [List.mem_append] at hd
  rcases hd with h | h
  · exact decDigits_lt_ten n n d h
  · rw [List.eq_of_mem_replicate h]; norm_num

/-- Inverse of `digitChar` on decimal digits. -/
def charDigit (c : Char) : Nat := c.toNat - 48

theorem charDigit_digitChar {d : Nat} (h : d < 10) : charDigit (digitChar d) = d := by
  interval_cases d <;> decide

theorem map_charDigit_digitChar : ∀ l : List Nat, (∀ d ∈ l, d < 10) →
    (l.map digitChar).map charDigit = l := by
  intro l hl
  induction l with
  | nil => rfl
  | cons d rest ih =>
    simp only [List.map_cons, List.cons.injEq]
    exact ⟨charDigit_digitChar (hl d (List.mem_cons_self _ _)),
      ih fun x hx => hl x (List.mem_cons_of_mem _ hx)⟩

theorem map_digitChar_inj {l1 l2 : List Nat} (h1 : ∀ d ∈ l1, d < 10) (h2 : ∀ d ∈ l2, d < 10)
    (h : l1.map digitChar = l2.map digitChar) : l1 = l2 := by
  rw [← map_charDigit_digitChar l1 h1, ← map_charDigit_digitChar l2 h2, h]

theorem fmtCodigo_injective {a b : Nat} (h : fmtCodigo a = fmtCodigo b) : a = b := by
  unfold fmtCodigo at h
  have hl : ['V', 'N', 'T', '-'] ++ ((padDigits6 a).reverse.map digitChar)
      = ['V', 'N', 'T', '-'] ++ ((padDigits6 b).reverse.map digitChar) := by
    simpa using congrArg String.data h
  have hmap := List.append_cancel_left hl
  have hrev : (padDigits6 a).reverse = (padDigits6 b).reverse :=
    map_digitChar_inj
      (fun d hd => padDigits6_lt_ten a d (List.mem_reverse.mp hd))
      (fun d hd => padDigits6_lt_ten b d (List.mem_reverse.mp hd)) hmap
  have hpad : padDigits6 a = padDigits6 b := List.reverse_injective hrev
  have := congrArg undigits hpad
  rwa [undigits_padDigits6, undigits_padDigits6] at this

/-! ## Lookup and update lemmas for the product table -/

theorem lookupProducto_mem : ∀ (l : List (Nat × Producto)) (pid : Nat) (p : Producto),
    lookupProducto l pid = some p → (pid, p) ∈ l := by
  intro l
  induction l with
  | nil => intro pid p h; simp [lookupProducto] at h
  | cons kv rest ih =>
    obtain ⟨k, v⟩ := kv
    intro pid p h
    by_cases hk : k = pid
    · rw [lookupProducto, if_pos hk] at h
      injection h with h2
      subst h2; subst hk
      exact List.mem_cons_self _ _
    · rw [lookupProducto, if_neg hk] at h
      exact List.mem_cons_of_mem _ (ih pid p h)

theorem lookupProducto_update_self : ∀ (l : List (Nat × Producto)) (pid : Nat) (pNew q : Producto),
    lookupProducto l pid = some q →
    lookupProducto (l.map fun kv => if kv.1 = pid then (kv.1, pNew) else kv) pid = some pNew := by
  intro l
  induction l with
  | nil => intro pid pNew q h; simp [lookupProducto] at h
  | cons kv rest ih =>
    obtain ⟨k, v⟩ := kv
    intro pid pNew q h
    by_cases hk : k = pid
    · simp only [List.map_cons]
      rw [show (if (k, v).1 = pid then ((k, v).1, pNew) else (k, v)) = (k, pNew) from by
        rw [if_pos hk]]
      rw [lookupProducto, if_pos hk]
    · rw [lookupProducto, if_neg hk] at h
      simp only [List.map_cons]
      rw [show (if (k, v).1 = pid then ((k, v).1, pNew) else (k, v)) = (k, v) from by
        rw [if_neg hk]]
      rw [lookupProducto, if_neg hk]
      exact ih pid pNew q h

theorem nonneg_update (l : List (Nat × Producto)) (pid : Nat) (pNew : Producto)
    (h : ∀ kv ∈ l, 0 ≤ kv.2.stock) (hp : 0 ≤ pNew.stock) :
    ∀ kv ∈ l.map fun kv => if kv.1 = pid then (kv.1, pNew) else kv, 0 ≤ kv.2.stock := by
  intro kv hkv
  rw [List.mem_map] at hkv
  obtain ⟨a, ha, rfl⟩ := hkv
  by_cases hk : a.1 = pid
  · simpa [if_pos hk] using hp
  · simpa [if_neg hk] using h a ha

theorem lookup_updateProducto_self (s : Store) (pid : Nat) (pNew q : Producto)
    (h : lookupProducto s.productos pid = some q) :
    lookupProducto (updateProducto s pid pNew).productos pid = some pNew :=
  lookupProducto_update_self s.productos pid pNew q h

/-! ## Bound on sale primary keys -/

theorem pk_le_maxVentaPk : ∀ (vs : List Venta), ∀ v ∈ vs, v.pk ≤ maxVentaPk vs := by
  intro vs
  induction vs with
  | nil => intro v hv; simp at hv
  | cons w rest ih =>
    intro v hv
    rcases List.mem_cons.mp hv with h | h
    · subst h; exact Nat.le_max_left _ _
    · exact Nat.le_trans (ih v h) (Nat.le_max_right _ _)

end Inventario

namespace Inventario

/-! ## Facts guaranteed by formset validation -/

/-- What a line that passed validation guarantees: a cleaned item carries the
product row fetched from the store, a quantity at least 1
(`MinValueValidator(1)`) and within the fetched stock (`clean_cantidad`). -/
def CleanOk (s : Store) : CleanLine → Prop
  | .del => True
  | .empty => True
  | .item pid p c => lookupProducto s.productos pid = some p ∧ 1 ≤ c ∧ c ≤ p.stock

theorem cleanLine_ok (s : Store) (l : LineInput) (cl : CleanLine)
    (h : cleanLine s l = .ok cl) : CleanOk s cl := by
  obtain ⟨d, po, co⟩ := l
  cases d
  · rcases po with _ | pid
    · rcases co with _ | c
      · simp only [cleanLine] at h
        injection h with h2
        subst h2
        trivial
      · simp [cleanLine] at h
    · rcases co with _ | c
      · simp [cleanLine] at h
      · simp only [cleanLine] at h
        rcases hl : lookupProducto s.productos pid with _ | p <;> rw [hl] at h
        · simp at h
        · simp only [] at h
          split_ifs at h with h1 h2
          injection h with h3
          subst h3
          exact ⟨hl, by omega, by omega⟩
  · simp only [cleanLine] at h
    injection h with h2
    subst h2
    trivial

theorem cleanedLines_ok (s : Store) (lines : List LineInput) :
    ∀ cl ∈ cleanedLines s lines, CleanOk s cl := by
  intro cl hcl
  unfold cleanedLines at hcl
  rw [List.mem_filterMap] at hcl
  obtain ⟨l, hl, he⟩ := hcl
  cases hres : cleanLine s l with
  | ok c =>
    rw [hres] at he
    simp only [Except.toOption, Option.some.injEq] at he
    subst he
    exact cleanLine_ok s l c hres
  | error e =>
    rw [hres] at he
    simp [Except.toOption] at he

theorem cleanLine_delete (s : Store) (l : LineInput) (h : l.delete = true) :
    cleanLine s l = .ok .del := by
  unfold cleanLine
  rw [h]

end Inventario

namespace Inventario

/-! ## Characterisation of the item-processing loop -/

theorem processItems_spec (s : Store) (pk : Nat) :
    ∀ (cls : List CleanLine) (st : Store) (t : Int) (k : Nat)
      (st2 : Store) (t2 : Int) (k2 : Nat),
      (∀ cl ∈ cls, CleanOk s cl) →
      processItems pk st cls t k = .ok (st2, t2, k2) →
      st2.ventas = st.ventas ∧ st2.clientes = st.clientes ∧
      st2.movimientos = st.movimientos ∧
      ((∀ kv ∈ st.productos, 0 ≤ kv.2.stock) → ∀ kv ∈ st2.productos, 0 ≤ kv.2.stock) ∧
      ∃ newItems : List ItemVenta,
        st2.items = st.items ++ newItems ∧
        t2 = t + (newItems.map (·.subtotal)).sum ∧
        k2 = k + newItems.length ∧
        (newItems = [] → st2 = st) ∧
        (∀ it ∈ newItems, it.venta = pk ∧ it.subtotal = it.cantidad * it.precioUnitario ∧
          1 ≤ it.cantidad ∧
          ∃ p, lookupProducto s.productos it.producto = some p ∧ it.precioUnitario = p.precio) := by
  intro cls
  induction cls with
  | nil =>
    intro st t k st2 t2 k2 _ h
    rw [processItems] at h
    injection h with h2
    rw [Prod.mk.injEq, Prod.mk.injEq] at h2
    obtain ⟨rfl, rfl, rfl⟩ := h2
    exact ⟨rfl, rfl, rfl, fun h => h, [], by simp, by simp, by simp, fun _ => rfl, by simp⟩
  | cons cl rest ih =>
    intro st t k st2 t2 k2 hok h
    have hokRest : ∀ c ∈ rest, CleanOk s c := fun c hc => hok c (List.mem_cons_of_mem _ hc)
    cases cl with
    | del =>
      rw [processItems] at h
      exact ih st t k st2 t2 k2 hokRest h
    | empty =>
      rw [processItems] at h
      exact ih st t k st2 t2 k2 hokRest h
    | item pid p c =>
      obtain ⟨hlook, hc1, hcs⟩ := hok _ (List.mem_cons_self _ _)
      rw [processItems, if_neg (by omega : ¬p.stock < c)] at h
      obtain ⟨hv, hcli, hm, hnn, newRest, hitems, ht, hk, _, hall⟩ :=
        ih (applyLineaVenta pk st pid p c) (t + c * p.precio) (k + 1) st2 t2 k2 hokRest h
      refine ⟨hv, hcli, hm, ?_,
        { venta := pk, producto := pid, cantidad := c,
          precioUnitario := p.precio, subtotal := c * p.precio } :: newRest, ?_, ?_, ?_, ?_, ?_⟩
      · intro hst
        apply hnn
        exact nonneg_update st.productos pid { p with stock := p.stock - c } hst
          (by simp only []; omega)
      · rw [hitems]
        simp [applyLineaVenta, updateProducto]
      · rw [ht]
        simp only [List.map_cons, List.sum_cons]
        ring
      · rw [hk]
        simp only [List.length_cons]
        omega
      · intro hfalse
        exact absurd hfalse (by simp)
      · intro it hit
        rcases List.mem_cons.mp hit with h2 | h2
        · subst h2
          exact ⟨rfl, rfl, hc1, p, hlook, rfl⟩
        · exact hall it h2

end Inventario

namespace Inventario

/-! ## The store invariant -/

/-- Well-formedness of a store: non-negative stocks, positive line
quantities, line items referencing existing sales, sale codes determined by
the pk in the generated format, and pairwise distinct sale pks. -/
def WF (s : Store) : Prop :=
  (∀ kv ∈ s.productos, 0 ≤ kv.2.stock) ∧
  (∀ it ∈ s.items, 1 ≤ it.cantidad) ∧
  (∀ it ∈ s.items, it.venta ∈ s.ventas.map (·.pk)) ∧
  (∀ v ∈ s.ventas, v.codigoVenta = fmtCodigo v.pk) ∧
  s.ventas.Pairwise (fun a b => a.pk ≠ b.pk)

theorem venta_pk_mem_map (vs : List Venta) (v : Venta) (hv : v ∈ vs) :
    v.pk ∈ vs.map (·.pk) :=
  List.mem_map.mpr ⟨v, hv, rfl⟩

theorem filter_pk_ne_of_all (vs : List Venta) (pk : Nat) (h : ∀ v ∈ vs, v.pk ≠ pk) :
    vs.filter (fun v => v.pk != pk) = vs :=
  List.filter_eq_self.mpr fun v hv => by simpa using h v hv

theorem filter_venta_ne_of_all (its : List ItemVenta) (pk : Nat)
    (h : ∀ it ∈ its, it.venta ≠ pk) :
    its.filter (fun it => it.venta != pk) = its :=
  List.filter_eq_self.mpr fun it hit => by simpa using h it hit

/-- Deleting the freshly inserted sale (with no items attached to it)
returns the store to exactly its previous state. -/
theorem cascadeDelete_addVenta (s : Store) (cid : Nat)
    (hitems : ∀ it ∈ s.items, it.venta ∈ s.ventas.map (·.pk)) :
    ventaCascadeDelete { s with ventas := s.ventas ++ [ventaNueva s cid] }
      (ventaNueva s cid).pk = s := by
  have hv : (s.ventas ++ [ventaNueva s cid]).filter
      (fun v => v.pk != (ventaNueva s cid).pk) = s.ventas := by
    rw [List.filter_append]
    have e1 : s.ventas.filter (fun v => v.pk != (ventaNueva s cid).pk) = s.ventas :=
      filter_pk_ne_of_all _ _ fun v hvm => by
        have := pk_le_maxVentaPk s.ventas v hvm
        simp only [ventaNueva]
        omega
    have e2 : [ventaNueva s cid].filter (fun v => v.pk != (ventaNueva s cid).pk) = [] := by
      simp
    rw [e1, e2, List.append_nil]
  have hi : s.items.filter (fun it => it.venta != (ventaNueva s cid).pk) = s.items :=
    filter_venta_ne_of_all _ _ fun it hit => by
      obtain ⟨v, hvm, he⟩ := List.mem_map.mp (hitems it hit)
      have := pk_le_maxVentaPk s.ventas v hvm
      simp only [ventaNueva]
      omega
  unfold ventaCascadeDelete
  simp only []
  rw [hv, hi]

theorem wf_cascadeDelete (s : Store) (pk : Nat) (h : WF s) : WF (ventaCascadeDelete s pk) := by
  obtain ⟨h1, h2, h3, h4, h5⟩ := h
  refine ⟨h1, ?_, ?_, ?_, ?_⟩
  · intro it hit
    exact h2 it (List.mem_filter.mp hit).1
  · intro it hit
    obtain ⟨hmem, hne⟩ := List.mem_filter.mp hit
    obtain ⟨v, hvm, he⟩ := List.mem_map.mp (h3 it hmem)
    refine List.mem_map.mpr ⟨v, List.mem_filter.mpr ⟨hvm, ?_⟩, he⟩
    simp only [bne_iff_ne] at hne ⊢
    rw [he]
    exact hne
  · intro v hv
    exact h4 v (List.mem_filter.mp hv).1
  · exact List.Pairwise.sublist (List.filter_sublist _) h5

/-- Adding the freshly allocated sale row preserves the invariant. -/
theorem wf_addVenta (s : Store) (cid : Nat) (h : WF s) :
    WF { s with ventas := s.ventas ++ [ventaNueva s cid] } := by
  obtain ⟨h1, h2, h3, h4, h5⟩ := h
  refine ⟨h1, h2, ?_, ?_, ?_⟩
  · intro it hit
    rw [List.map_append, List.mem_append]
    exact Or.inl (h3 it hit)
  · intro v hv
    rcases List.mem_append.mp hv with hm | hm
    · exact h4 v hm
    · rw [List.mem_singleton.mp hm]
      rfl
  · rw [List.pairwise_append]
    refine ⟨h5, List.pairwise_singleton _ _, ?_⟩
    intro a ha b hb
    rw [List.mem_singleton.mp hb]
    have := pk_le_maxVentaPk s.ventas a ha
    simp only [ventaNueva]
    omega

theorem updateVentaTotal_map_pk (vs : List Venta) (pk : Nat) (t : Int) :
    (updateVentaTotal vs pk t).map (·.pk) = vs.map (·.pk) := by
  unfold updateVentaTotal
  rw [List.map_map]
  apply List.map_congr_left
  intro v _
  by_cases hp : v.pk = pk <;> simp [Function.comp, hp]

theorem updateVentaTotal_mem (vs : List Venta) (pk : Nat) (t : Int) :
    ∀ v ∈ updateVentaTotal vs pk t, ∃ w ∈ vs, v.pk = w.pk ∧ v.codigoVenta = w.codigoVenta := by
  intro v hv
  unfold updateVentaTotal at hv
  obtain ⟨w, hw, he⟩ := List.mem_map.mp hv
  by_cases hp : w.pk = pk
  · rw [if_pos hp] at he
    exact ⟨w, hw, by rw [← he], by rw [← he]⟩
  · rw [if_neg hp] at he
    exact ⟨w, hw, by rw [← he], by rw [← he]⟩

theorem updateVentaTotal_pairwise (vs : List Venta) (pk : Nat) (t : Int)
    (h : vs.Pairwise (fun a b => a.pk ≠ b.pk)) :
    (updateVentaTotal vs pk t).Pairwise (fun a b => a.pk ≠ b.pk) := by
  unfold updateVentaTotal
  rw [List.pairwise_map]
  have hpk : ∀ v : Venta, (if v.pk = pk then { v with total := t } else v).pk = v.pk := by
    intro v
    by_cases hv : v.pk = pk <;> simp [hv]
  refine h.imp ?_
  intro a b hab
  rw [hpk a, hpk b]
  exact hab

end Inventario

namespace Inventario

/-! ## Invariant preservation by each operation -/

theorem wf_movimientoCreate (s : Store) (pid : Nat) (tipo : TipoMovimiento)
    (c : Int) (m u : String) (h : WF s) : WF (movimientoCreate s pid tipo c m u).1 := by
  obtain ⟨h1, h2, h3, h4, h5⟩ := h
  unfold movimientoCreate
  rcases hl : lookupProducto s.productos pid with _ | p <;> simp only []
  · exact ⟨h1, h2, h3, h4, h5⟩
  · by_cases hc : c < 1
    · rw [if_pos hc]
      exact ⟨h1, h2, h3, h4, h5⟩
    · rw [if_neg hc]
      have hmem := h1 (pid, p) (lookupProducto_mem _ _ _ hl)
      cases tipo
      · refine ⟨?_, h2, h3, h4, h5⟩
        exact nonneg_update s.productos pid { p with stock := p.stock + c } h1
          (by show 0 ≤ p.stock + c; simp only [] at hmem; omega)
      · by_cases hs : p.stock ≥ c
        · rw [if_pos hs]
          refine ⟨?_, h2, h3, h4, h5⟩
          exact nonneg_update s.productos pid { p with stock := p.stock - c } h1
            (by show 0 ≤ p.stock - c; omega)
        · rw [if_neg hs]
          exact ⟨h1, h2, h3, h4, h5⟩

theorem wf_ajusteStock (s : Store) (pid : Nat) (nuevaCantidad : Int)
    (m u : String) (h : WF s) : WF (ajusteStock s pid nuevaCantidad m u).1 := by
  obtain ⟨h1, h2, h3, h4, h5⟩ := h
  unfold ajusteStock
  rcases hl : lookupProducto s.productos pid with _ | p <;> simp only []
  · exact ⟨h1, h2, h3, h4, h5⟩
  · by_cases hn : nuevaCantidad < 0
    · rw [if_pos hn]
      exact ⟨h1, h2, h3, h4, h5⟩
    · rw [if_neg hn]
      by_cases hd : nuevaCantidad - p.stock = 0
      · rw [if_pos hd]
        exact ⟨h1, h2, h3, h4, h5⟩
      · rw [if_neg hd]
        refine ⟨?_, h2, h3, h4, h5⟩
        exact nonneg_update s.productos pid { p with stock := nuevaCantidad } h1
          (by show 0 ≤ nuevaCantidad; omega)

theorem restore_foldl_spec : ∀ (its : List ItemVenta) (st : Store),
    (∀ it ∈ its, 1 ≤ it.cantidad) →
    (its.foldl restoreStockOfItem st).ventas = st.ventas ∧
    (its.foldl restoreStockOfItem st).clientes = st.clientes ∧
    (its.foldl restoreStockOfItem st).items = st.items ∧
    (its.foldl restoreStockOfItem st).movimientos = st.movimientos ∧
    ((∀ kv ∈ st.productos, 0 ≤ kv.2.stock) →
      ∀ kv ∈ (its.foldl restoreStockOfItem st).productos, 0 ≤ kv.2.stock) := by
  intro its
  induction its with
  | nil => intro st _; exact ⟨rfl, rfl, rfl, rfl, fun h => h⟩
  | cons it rest ih =>
    intro st hq
    rw [List.foldl_cons]
    have hstep : (restoreStockOfItem st it).ventas = st.ventas ∧
        (restoreStockOfItem st it).clientes = st.clientes ∧
        (restoreStockOfItem st it).items = st.items ∧
        (restoreStockOfItem st it).movimientos = st.movimientos ∧
        ((∀ kv ∈ st.productos, 0 ≤ kv.2.stock) →
          ∀ kv ∈ (restoreStockOfItem st it).productos, 0 ≤ kv.2.stock) := by
      unfold restoreStockOfItem
      rcases hl : lookupProducto st.productos it.producto with _ | p
      · exact ⟨rfl, rfl, rfl, rfl, fun h => h⟩
      · refine ⟨rfl, rfl, rfl, rfl, ?_⟩
        intro h
        refine nonneg_update st.productos it.producto
          { p with stock := p.stock + it.cantidad } h ?_
        have h0 := h (it.producto, p) (lookupProducto_mem _ _ _ hl)
        have hc := hq it (List.mem_cons_self _ _)
        show 0 ≤ p.stock + it.cantidad
        simp only [] at h0
        omega
    obtain ⟨e1, e2, e3, e4, e5⟩ := hstep
    obtain ⟨f1, f2, f3, f4, f5⟩ :=
      ih (restoreStockOfItem st it) fun x hx => hq x (List.mem_cons_of_mem _ hx)
    exact ⟨f1.trans e1, f2.trans e2, f3.trans e3, f4.trans e4, fun h => f5 (e5 h)⟩

theorem wf_ventaDelete (s : Store) (pk : Nat) (h : WF s) : WF (ventaDelete s pk).1 := by
  obtain ⟨h1, h2, h3, h4, h5⟩ := h
  unfold ventaDelete
  rcases hf : s.ventas.find? (fun v => v.pk == pk) with _ | venta <;> rw [hf] <;> simp only []
  · exact ⟨h1, h2, h3, h4, h5⟩
  · obtain ⟨e1, e2, e3, e4, e5⟩ :=
      restore_foldl_spec (s.items.filter fun it => it.venta == pk) s
        (fun it hit => h2 it (List.mem_filter.mp hit).1)
    apply wf_cascadeDelete
    refine ⟨e5 h1, ?_, ?_, ?_, ?_⟩
    · rw [e3]
      exact h2
    · rw [e3, e1]
      exact h3
    · rw [e1]
      exact h4
    · rw [e1]
      exact h5

theorem wf_ventaCreate (s : Store) (cid : Nat) (lines : List LineInput) (h : WF s) :
    WF (ventaCreate s cid lines).1 := by
  have hwf := h
  obtain ⟨h1, h2, h3, h4, h5⟩ := h
  unfold ventaCreate
  by_cases hg : (s.clientes.contains cid && (formsetErrors s lines).isEmpty) = true
  · rw [if_pos hg]
    unfold ventaCreateTx
    rcases hp : processItems (ventaNueva s cid).pk
        { s with ventas := s.ventas ++ [ventaNueva s cid] } (cleanedLines s lines) 0 0
      with msg | ⟨st2, t2, k2⟩ <;> simp only []
    · exact ⟨h1, h2, h3, h4, h5⟩
    · have hwf1 : WF { s with ventas := s.ventas ++ [ventaNueva s cid] } :=
        wf_addVenta s cid hwf
      obtain ⟨g1, g2, g3, g4, g5⟩ := hwf1
      obtain ⟨hv, hcli, hm, hnn, newItems, hitems, ht, hk, hemp, hall⟩ :=
        processItems_spec s (ventaNueva s cid).pk (cleanedLines s lines)
          { s with ventas := s.ventas ++ [ventaNueva s cid] } 0 0 st2 t2 k2
          (cleanedLines_ok s lines) hp
    -- the two branches of the count test
      by_cases hk0 : k2 = 0
      · rw [if_pos hk0]
        apply wf_cascadeDelete
        refine ⟨hnn g1, ?_, ?_, ?_, ?_⟩
        · rw [hitems]
          intro it hit
          rcases List.mem_append.mp hit with hm2 | hm2
          · exact g2 it hm2
          · exact (hall it hm2).2.2.1
        · rw [hitems, hv]
          intro it hit
          rcases List.mem_append.mp hit with hm2 | hm2
          · exact g3 it hm2
          · rw [(hall it hm2).1]
            exact venta_pk_mem_map _ _ (List.mem_append.mpr (Or.inr (List.mem_singleton.mpr rfl)))
        · rw [hv]
          exact g4
        · rw [hv]
          exact g5
      · rw [if_neg hk0]
        refine ⟨hnn g1, ?_, ?_, ?_, ?_⟩
        · rw [hitems]
          intro it hit
          rcases List.mem_append.mp hit with hm2 | hm2
          · exact g2 it hm2
          · exact (hall it hm2).2.2.1
        · intro it hit
          rw [show ({ st2 with ventas := updateVentaTotal st2.ventas (ventaNueva s cid).pk t2
              } : Store).ventas = updateVentaTotal st2.ventas (ventaNueva s cid).pk t2 from rfl,
            updateVentaTotal_map_pk, hv]
          rw [show ({ st2 with ventas := updateVentaTotal st2.ventas (ventaNueva s cid).pk t2
              } : Store).items = st2.items from rfl, hitems] at hit
          rcases List.mem_append.mp hit with hm2 | hm2
          · exact g3 it hm2
          · rw [(hall it hm2).1]
            exact venta_pk_mem_map _ _ (List.mem_append.mpr (Or.inr (List.mem_singleton.mpr rfl)))
        · intro v hv2
          obtain ⟨w, hw, hpkeq, hcodeq⟩ := updateVentaTotal_mem st2.ventas _ t2 v hv2
          rw [hv] at hw
          rw [hcodeq, hpkeq]
          exact g4 w hw
        · apply updateVentaTotal_pairwise
          rw [hv]
          exact g5
  · rw [if_neg hg]
    exact ⟨h1, h2, h3, h4, h5⟩

/-! ## Reachable stores -/

/-- Stores reachable through the four public state-changing operations from
any store satisfying the invariant (in particular from the empty store). -/
inductive Reach : Store → Prop where
  | base (s : Store) : WF s → Reach s
  | mov (s : Store) (pid : Nat) (tipo : TipoMovimiento) (c : Int) (m u : String) :
      Reach s → Reach (movimientoCreate s pid tipo c m u).1
  | ajuste (s : Store) (pid : Nat) (n : Int) (m u : String) :
      Reach s → Reach (ajusteStock s pid n m u).1
  | crear (s : Store) (cid : Nat) (lines : List LineInput) :
      Reach s → Reach (ventaCreate s cid lines).1
  | borrar (s : Store) (pk : Nat) :
      Reach s → Reach (ventaDelete s pk).1

theorem reach_wf (s : Store) (h : Reach s) : WF s := by
  induction h with
  | base s hs => exact hs
  | mov s pid tipo c m u _ ih => exact wf_movimientoCreate s pid tipo c m u ih
  | ajuste s pid n m u _ ih => exact wf_ajusteStock s pid n m u ih
  | crear s cid lines _ ih => exact wf_ventaCreate s cid lines ih
  | borrar s pk _ ih => exact wf_ventaDelete s pk ih

end Inventario

namespace Inventario

/-! ## Inversion of a successful sale creation -/

theorem ventaCreate_created_inv (s : Store) (cid : Nat) (lines : List LineInput)
    (s2 : Store) (pk : Nat) (cod : String)
    (h : ventaCreate s cid lines = (s2, .created pk cod)) :
    pk = (ventaNueva s cid).pk ∧ cod = fmtCodigo pk ∧
    ∃ st2 t2 k2,
      processItems (ventaNueva s cid).pk
        { s with ventas := s.ventas ++ [ventaNueva s cid] } (cleanedLines s lines) 0 0
        = .ok (st2, t2, k2) ∧
      k2 ≠ 0 ∧
      s2 = { st2 with ventas := updateVentaTotal st2.ventas (ventaNueva s cid).pk t2 } := by
  unfold ventaCreate at h
  by_cases hg : (s.clientes.contains cid && (formsetErrors s lines).isEmpty) = true
  · rw [if_pos hg] at h
    unfold ventaCreateTx at h
    rcases hp : processItems (ventaNueva s cid).pk
        { s with ventas := s.ventas ++ [ventaNueva s cid] } (cleanedLines s lines) 0 0
      with msg | ⟨st2, t2, k2⟩ <;> rw [hp] at h <;> simp only [] at h
    · exact absurd (congrArg Prod.snd h) (by simp)
    · by_cases hk0 : k2 = 0
      · rw [if_pos hk0] at h
        exact absurd (congrArg Prod.snd h) (by simp)
      · rw [if_neg hk0] at h
        rw [Prod.mk.injEq] at h
        obtain ⟨hs2, hout⟩ := h
        injection hout with hpk hcod
        refine ⟨hpk.symm, ?_, st2, t2, k2, by first | exact hp | rfl, hk0, hs2.symm⟩
        rw [← hcod, ← hpk]
        rfl
  · rw [if_neg hg] at h
    exact absurd (congrArg Prod.snd h) (by simp)

theorem find?_append_singleton (vs : List Venta) (x : Venta) (p : Venta → Bool)
    (hall : ∀ v ∈ vs, ¬p v = true) (hx : p x = true) :
    (vs ++ [x]).find? p = some x := by
  rw [List.find?_append, List.find?_eq_none.mpr hall, Option.none_or]
  unfold List.find?
  rw [hx]

theorem filter_venta_eq_append (olds news : List ItemVenta) (pk : Nat)
    (hold : ∀ it ∈ olds, it.venta ≠ pk) (hnew : ∀ it ∈ news, it.venta = pk) :
    (olds ++ news).filter (fun it => it.venta == pk) = news := by
  rw [List.filter_append,
    List.filter_eq_nil_iff.mpr (fun it hit => by simp [hold it hit]),
    List.filter_eq_self.mpr (fun it hit => by simp [hnew it hit]),
    List.nil_append]

/-! ## Lemmas for a sale request whose lines are all flagged for removal -/

theorem formsetErrors_all_del (s : Store) (lines : List LineInput)
    (h : ∀ l ∈ lines, l.delete = true) : formsetErrors s lines = [] := by
  unfold formsetErrors
  refine List.filterMap_eq_nil.mpr fun l hl => ?_
  rw [cleanLine_delete s l (h l hl)]

theorem cleanedLines_all_del (s : Store) (lines : List LineInput)
    (h : ∀ l ∈ lines, l.delete = true) :
    ∀ cl ∈ cleanedLines s lines, cl = CleanLine.del := by
  intro cl hcl
  unfold cleanedLines at hcl
  obtain ⟨l, hl, he⟩ := List.mem_filterMap.mp hcl
  rw [cleanLine_delete s l (h l hl)] at he
  simp only [Except.toOption, Option.some.injEq] at he
  exact he.symm

theorem processItems_all_del (pk : Nat) : ∀ (cls : List CleanLine) (st : Store) (t : Int) (k : Nat),
    (∀ cl ∈ cls, cl = CleanLine.del) →
    processItems pk st cls t k = .ok (st, t, k) := by
  intro cls
  induction cls with
  | nil => intro st t k _; rfl
  | cons cl rest ih =>
    intro st t k hall
    have hd := hall cl (List.mem_cons_self _ _)
    subst hd
    rw [processItems]
    exact ih st t k fun c hc => hall c (List.mem_cons_of_mem _ hc)

/-! ## Skipping a blank line in the processing loop -/

theorem processItems_skip (pk : Nat) (cl : CleanLine) (hcl : cl = .del ∨ cl = .empty) :
    ∀ (xs ys : List CleanLine) (st : Store) (t : Int) (k : Nat),
    processItems pk st (xs ++ cl :: ys) t k = processItems pk st (xs ++ ys) t k := by
  intro xs
  induction xs with
  | nil =>
    intro ys st t k
    rcases hcl with h | h <;> subst h <;> rw [List.nil_append, List.nil_append, processItems]
  | cons x rest ih =>
    intro ys st t k
    rw [List.cons_append, List.cons_append]
    cases x with
    | del =>
      rw [processItems]
      conv_rhs => rw [processItems]
      exact ih ys st t k
    | empty =>
      rw [processItems]
      conv_rhs => rw [processItems]
      exact ih ys st t k
    | item pid p c =>
      rw [processItems]
      conv_rhs => rw [processItems]
      by_cases hs : p.stock < c
      · rw [if_pos hs, if_pos hs]
      · rw [if_neg hs, if_neg hs]
        exact ih ys _ _ _

end Inventario

namespace Inventario

/-! ## Claim theorems -/

/-- C1: for every successfully created sale, the persisted sale total equals
the sum of its line items' subtotals, and every line item's subtotal equals
its quantity multiplied by the unit price captured from the product at sale
time. -/
theorem venta_total_es_suma_subtotales (s : Store) (cid : Nat) (lines : List LineInput)
    (s2 : Store) (pk : Nat) (cod : String) (hwf : WF s)
    (h : ventaCreate s cid lines = (s2, .created pk cod)) :
    ∃ v, s2.ventas.find? (fun w => w.pk == pk) = some v ∧
      v.total = ((s2.items.filter fun it => it.venta == pk).map (·.subtotal)).sum ∧
      ∀ it ∈ s2.items.filter fun it => it.venta == pk,
        it.subtotal = it.cantidad * it.precioUnitario ∧
        ∃ p, lookupProducto s.productos it.producto = some p ∧
          it.precioUnitario = p.precio := by
  obtain ⟨hpk, hcod, st2, t2, k2, hp, hk0, hs2⟩ := ventaCreate_created_inv s cid lines s2 pk cod h
  obtain ⟨h1, h2, h3, h4, h5⟩ := hwf
  obtain ⟨hv, hcli, hm, hnn, newItems, hitems, ht, hk, hemp, hall⟩ :=
    processItems_spec s (ventaNueva s cid).pk (cleanedLines s lines)
      { s with ventas := s.ventas ++ [ventaNueva s cid] } 0 0 st2 t2 k2
      (cleanedLines_ok s lines) hp
  subst hs2
  subst hpk
  have hv2 : st2.ventas = s.ventas ++ [ventaNueva s cid] := hv
  have hitems2 : st2.items = s.items ++ newItems := hitems
  have hnvpk : (ventaNueva s cid).pk = maxVentaPk s.ventas + 1 := rfl
  have hfilter : st2.items.filter (fun it => it.venta == (ventaNueva s cid).pk) = newItems := by
    rw [hitems2]
    refine filter_venta_eq_append _ _ _ ?_ ?_
    · intro it hit
      obtain ⟨v, hvm, he⟩ := List.mem_map.mp (h3 it hit)
      have := pk_le_maxVentaPk s.ventas v hvm
      omega
    · intro it hit
      exact (hall it hit).1
  refine ⟨{ ventaNueva s cid with total := t2 }, ?_, ?_, ?_⟩
  · show (updateVentaTotal st2.ventas (ventaNueva s cid).pk t2).find?
      (fun w => w.pk == (ventaNueva s cid).pk) = some { ventaNueva s cid with total := t2 }
    rw [hv2]
    unfold updateVentaTotal
    rw [List.map_append]
    rw [show List.map (fun v => if v.pk = (ventaNueva s cid).pk then { v with total := t2 }
        else v) [ventaNueva s cid] = [{ ventaNueva s cid with total := t2 }] from by simp]
    refine find?_append_singleton _ _ _ ?_ ?_
    · intro v hvm
      obtain ⟨w, hw, he⟩ := List.mem_map.mp hvm
      have hle := pk_le_maxVentaPk s.ventas w hw
      have hvpk : v.pk = w.pk := by
        rw [← he]
        by_cases hc : w.pk = (ventaNueva s cid).pk <;> simp [hc]
      simp only [beq_iff_eq]
      rw [hvpk]
      omega
    · simp
  · show ({ ventaNueva s cid with total := t2 } : Venta).total =
      ((st2.items.filter fun it => it.venta == (ventaNueva s cid).pk).map (·.subtotal)).sum
    rw [hfilter]
    show t2 = (newItems.map (·.subtotal)).sum
    rw [ht]
    simp
  · intro it hit
    rw [show (st2.items.filter fun it => it.venta == (ventaNueva s cid).pk) = newItems
      from hfilter] at hit
    obtain ⟨_, hsub, _, hex⟩ := hall it hit
    exact ⟨hsub, hex⟩

/-- C5: a successful stock adjustment leaves the product's stock exactly at
the target, creating exactly one movement whose magnitude is the absolute
difference from the original stock; a target equal to the current stock
creates no movement and reports the stock as unchanged (informational). -/
theorem ajuste_stock_exacto (s : Store) (pid : Nat) (p : Producto) (nueva : Int)
    (m u : String) (hp : lookupProducto s.productos pid = some p) (hn : 0 ≤ nueva) :
    lookupProducto (ajusteStock s pid nueva m u).1.productos pid
      = some { p with stock := nueva } ∧
    (nueva ≠ p.stock →
      (ajusteStock s pid nueva m u).2 = .actualizado ∧
      ∃ mov : MovimientoStock,
        (ajusteStock s pid nueva m u).1.movimientos = s.movimientos ++ [mov] ∧
        mov.producto = pid ∧ mov.cantidad = |nueva - p.stock| ∧
        mov.tipo = (if p.stock < nueva then TipoMovimiento.entrada else TipoMovimiento.salida)) ∧
    (nueva = p.stock → ajusteStock s pid nueva m u = (s, .sinCambio)) := by
  unfold ajusteStock
  rw [hp]
  simp only []
  rw [if_neg (by omega : ¬nueva < 0)]
  by_cases hd : nueva - p.stock = 0
  · rw [if_pos hd]
    refine ⟨?_, fun hne => absurd (by omega : nueva = p.stock) hne, fun _ => rfl⟩
    rw [show ({ p with stock := nueva } : Producto) = p from by
      rw [show nueva = p.stock from by omega]]
    exact hp
  · rw [if_neg hd]
    simp only []
    refine ⟨?_, ?_, ?_⟩
    · exact lookupProducto_update_self s.productos pid { p with stock := nueva } p hp
    · intro hne
      constructor
      · trivial
      · refine ⟨_, rfl, rfl, rfl, ?_⟩
        show (if nueva - p.stock > 0 then TipoMovimiento.entrada else TipoMovimiento.salida) = _
        by_cases hlt : p.stock < nueva
        · rw [if_pos (by omega : nueva - p.stock > 0), if_pos hlt]
        · rw [if_neg (by omega : ¬nueva - p.stock > 0), if_neg hlt]
    · intro heq
      exact absurd (by omega : nueva - p.stock = 0) hd

/-- C8: an outbound movement with quantity above the current stock fails
with the insufficient-stock form error and changes nothing; one with
quantity at most the stock succeeds, decrements stock by exactly the
quantity and appends the movement record. -/
theorem movimiento_salida_correcto (s : Store) (pid : Nat) (p : Producto) (c : Int)
    (m u : String) (hp : lookupProducto s.productos pid = some p) (hc : 1 ≤ c) :
    (p.stock < c →
      movimientoCreate s pid .salida c m u = (s, .formError "No hay stock suficiente")) ∧
    (c ≤ p.stock →
      (movimientoCreate s pid .salida c m u).2 = .success ∧
      lookupProducto (movimientoCreate s pid .salida c m u).1.productos pid
        = some { p with stock := p.stock - c } ∧
      (movimientoCreate s pid .salida c m u).1.movimientos
        = s.movimientos ++ [⟨pid, .salida, c, m, u⟩]) := by
  unfold movimientoCreate
  rw [hp]
  simp only []
  rw [if_neg (by omega : ¬c < 1)]
  constructor
  · intro hlt
    rw [if_neg (by omega : ¬p.stock ≥ c)]
  · intro hle
    rw [if_pos (by omega : p.stock ≥ c)]
    exact ⟨rfl, lookupProducto_update_self s.productos pid _ p hp, rfl⟩

end Inventario

namespace Inventario

/-- Boolean substring test on character lists (for stating what an error
message does and does not name). -/
def containsSub (needle hay : List Char) : Bool :=
  hay.tails.any fun t => needle.isPrefixOf t

/-- C9: a sale request in which every line is flagged for removal is
rejected with the empty-sale warning and the store is returned exactly as it
was: no sale record and no stock change. -/
theorem venta_sin_lineas_rechazada (s : Store) (cid : Nat) (lines : List LineInput)
    (hwf : WF s) (hcid : cid ∈ s.clientes) (hdel : ∀ l ∈ lines, l.delete = true) :
    ventaCreate s cid lines = (s, .ventaVacia) := by
  have hg : (s.clientes.contains cid && (formsetErrors s lines).isEmpty) = true := by
    rw [formsetErrors_all_del s lines hdel]
    simp [hcid]
  unfold ventaCreate
  rw [if_pos hg]
  unfold ventaCreateTx
  rw [processItems_all_del (ventaNueva s cid).pk (cleanedLines s lines)
    { s with ventas := s.ventas ++ [ventaNueva s cid] } 0 0 (cleanedLines_all_del s lines hdel)]
  simp only []
  rw [if_true]
  rw [cascadeDelete_addVenta s cid hwf.2.2.1]

/-- C3 (amended): a line requesting more than the available stock makes the
formset invalid, so the request is rejected with the form errors and the
store is returned unchanged (no sale record, no stock deduction); the
surfaced error is the `clean_cantidad` insufficient-stock error carrying the
available quantity. -/
theorem stock_insuficiente_invalida (s : Store) (cid : Nat) (lines : List LineInput)
    (l : LineInput) (pid : Nat) (q : Int) (p : Producto)
    (hl : l ∈ lines) (hd : l.delete = false) (hpd : l.producto = some pid)
    (hq : l.cantidad = some q) (hp : lookupProducto s.productos pid = some p)
    (hgt : p.stock < q) :
    ventaCreate s cid lines = (s, .invalidForm (formsetErrors s lines)) ∧
    (1 ≤ q → LineError.stockInsuf p.stock ∈ formsetErrors s lines) := by
  have he : cleanLine s l = .error (if q < 1 then .minValue else .stockInsuf p.stock) := by
    obtain ⟨d, po, co⟩ := l
    have hd2 : d = false := hd
    have hpo : po = some pid := hpd
    have hco : co = some q := hq
    subst hd2
    subst hpo
    subst hco
    simp only [cleanLine]
    rw [hp]
    simp only []
    by_cases h1 : q < 1
    · rw [if_pos h1, if_pos h1]
    · rw [if_neg h1, if_neg h1, if_pos hgt]
  have hmem : (if q < 1 then LineError.minValue else LineError.stockInsuf p.stock)
      ∈ formsetErrors s lines := by
    unfold formsetErrors
    refine List.mem_filterMap.mpr ⟨l, hl, ?_⟩
    rw [he]
  have hne : (formsetErrors s lines).isEmpty = false := by
    cases hfe : formsetErrors s lines with
    | nil => rw [hfe] at hmem; simp at hmem
    | cons a as => rfl
  constructor
  · unfold ventaCreate
    rw [if_neg (by rw [hne, Bool.and_false]; simp)]
  · intro h1
    rw [if_neg (by omega : ¬q < 1)] at hmem
    exact hmem

/-- C10 (amended): a submitted line with both product and quantity blank is
silently skipped: the sale request behaves exactly as if the line had not
been submitted (no line item, no stock change, no error, and it does not
count toward the at-least-one-line requirement). -/
theorem linea_en_blanco_omitida (s : Store) (cid : Nat) (pre post : List LineInput)
    (l : LineInput) (hpd : l.producto = none) (hq : l.cantidad = none) :
    ventaCreate s cid (pre ++ l :: post) = ventaCreate s cid (pre ++ post) := by
  have hcl : cleanLine s l = .ok .del ∨ cleanLine s l = .ok .empty := by
    obtain ⟨d, po, co⟩ := l
    have hpo : po = none := hpd
    have hco : co = none := hq
    subst hpo
    subst hco
    cases d
    · right; rfl
    · left; rfl
  have herr : formsetErrors s (pre ++ l :: post) = formsetErrors s (pre ++ post) := by
    unfold formsetErrors
    simp only [List.filterMap_append, List.filterMap_cons]
    rcases hcl with h | h <;> rw [h]
  have hcleq : ∃ cl, (cl = CleanLine.del ∨ cl = CleanLine.empty) ∧
      cleanedLines s (pre ++ l :: post) = cleanedLines s pre ++ cl :: cleanedLines s post := by
    rcases hcl with h | h
    · refine ⟨.del, Or.inl rfl, ?_⟩
      unfold cleanedLines
      simp only [List.filterMap_append, List.filterMap_cons]
      rw [h]
      rfl
    · refine ⟨.empty, Or.inr rfl, ?_⟩
      unfold cleanedLines
      simp only [List.filterMap_append, List.filterMap_cons]
      rw [h]
      rfl
  have hcln2 : cleanedLines s (pre ++ post) = cleanedLines s pre ++ cleanedLines s post := by
    unfold cleanedLines
    rw [List.filterMap_append]
  obtain ⟨cl, hclor, hcleq2⟩ := hcleq
  unfold ventaCreate
  rw [herr]
  by_cases hg : (s.clientes.contains cid && (formsetErrors s (pre ++ post)).isEmpty) = true
  · rw [if_pos hg, if_pos hg]
    unfold ventaCreateTx
    rw [hcleq2, hcln2, processItems_skip _ cl hclor]
  · rw [if_neg hg, if_neg hg]

/-- C4: every product's stock is non-negative in every store reachable
through the public operations (stock movement, stock adjustment, sale
creation, sale reversal) from an invariant-satisfying store. -/
theorem stock_nunca_negativo (s : Store) (h : Reach s) :
    ∀ kv ∈ s.productos, 0 ≤ kv.2.stock :=
  (reach_wf s h).1

/-- C7 (amended): in every reachable store, any two coexisting sales carry
distinct codes (a deleted sale's code can however be reassigned later, see
the counterexample). -/
theorem codigos_ventas_coexistentes_distintos (s : Store) (h : Reach s) :
    s.ventas.Pairwise (fun a b => a.codigoVenta ≠ b.codigoVenta) := by
  obtain ⟨-, -, -, h4, h5⟩ := reach_wf s h
  refine List.Pairwise.imp_of_mem ?_ h5
  intro a b ha hb hne
  rw [h4 a ha, h4 b hb]
  intro hcontra
  exact hne (fmtCodigo_injective hcontra)

end Inventario

namespace Inventario

instance decidableWF (s : Store) : Decidable (WF s) := by
  unfold WF
  infer_instance

/-- C2: evaluation at the failing input.  Product 1 has stock 10; a sale
with two lines for the same product (quantities 2 and 3) succeeds, but the
persisted stock is 7 — only the last line's deduction survives, because each
line saves its own validation-time snapshot — instead of 5. -/
theorem venta_producto_repetido_descuenta_solo_ultima_linea :
    ventaCreate ⟨[(1, ⟨"A", 5, 10⟩)], [7], [], [], []⟩ 7
      [⟨false, some 1, some 2⟩, ⟨false, some 1, some 3⟩]
      = (⟨[(1, ⟨"A", 5, 7⟩)], [7], [⟨1, "VNT-000001", 7, 25⟩],
          [⟨1, 1, 2, 5, 10⟩, ⟨1, 1, 3, 5, 15⟩], []⟩, .created 1 "VNT-000001") := by
  decide

/-- C6: evaluation at the failing input.  Continuing the C2 store (pre-sale
stock 10, post-sale stock 7), deleting the sale credits both lines (2 and 3)
back, leaving stock 12 instead of the pre-sale 10; a second deletion fails
with not-found and changes nothing. -/
theorem venta_borrada_no_restaura_stock_original :
    ventaDelete (⟨[(1, ⟨"A", 5, 7⟩)], [7], [⟨1, "VNT-000001", 7, 25⟩],
        [⟨1, 1, 2, 5, 10⟩, ⟨1, 1, 3, 5, 15⟩], []⟩ : Store) 1
      = (⟨[(1, ⟨"A", 5, 12⟩)], [7], [], [], []⟩, .deleted "VNT-000001") ∧
    ventaDelete (⟨[(1, ⟨"A", 5, 12⟩)], [7], [], [], []⟩ : Store) 1
      = (⟨[(1, ⟨"A", 5, 12⟩)], [7], [], [], []⟩, .notFound) := by
  decide

/-- C7 (counterexample): create a sale (assigned code VNT-000001), delete
it, create another sale: the second sale is assigned the deleted sale's code
VNT-000001 — two sales of the same run share a code. -/
theorem codigo_venta_reutilizado_tras_borrado :
    ventaCreate (⟨[(1, ⟨"A", 5, 10⟩)], [7], [], [], []⟩ : Store) 7 [⟨false, some 1, some 2⟩]
      = (⟨[(1, ⟨"A", 5, 8⟩)], [7], [⟨1, "VNT-000001", 7, 10⟩],
          [⟨1, 1, 2, 5, 10⟩], []⟩, .created 1 "VNT-000001") ∧
    ventaDelete (⟨[(1, ⟨"A", 5, 8⟩)], [7], [⟨1, "VNT-000001", 7, 10⟩],
        [⟨1, 1, 2, 5, 10⟩], []⟩ : Store) 1
      = (⟨[(1, ⟨"A", 5, 10⟩)], [7], [], [], []⟩, .deleted "VNT-000001") ∧
    (ventaCreate (⟨[(1, ⟨"A", 5, 10⟩)], [7], [], [], []⟩ : Store) 7
      [⟨false, some 1, some 2⟩]).2 = .created 1 "VNT-000001" := by
  decide

/-- C3 (counterexample): with product "Zapato" at stock 2 and a line
requesting 5, the request is rejected, but the surfaced form error message
is "Stock insuficiente. Solo hay 2 unidades disponibles." — it names the
available quantity yet contains neither the product name nor the requested
quantity, contrary to the claim. -/
theorem error_stock_insuficiente_no_nombra_producto :
    ventaCreate (⟨[(1, ⟨"Zapato", 5, 2⟩)], [7], [], [], []⟩ : Store) 7
      [⟨false, some 1, some 5⟩]
      = (⟨[(1, ⟨"Zapato", 5, 2⟩)], [7], [], [], []⟩, .invalidForm [.stockInsuf 2]) ∧
    lineErrorMsg (.stockInsuf 2) = "Stock insuficiente. Solo hay 2 unidades disponibles." ∧
    containsSub "2".data (lineErrorMsg (.stockInsuf 2)).data = true ∧
    containsSub "Zapato".data (lineErrorMsg (.stockInsuf 2)).data = false ∧
    containsSub "5".data (lineErrorMsg (.stockInsuf 2)).data = false := by
  decide

/-- C10 (counterexample): a request with one complete line (product 1,
quantity 2) and one partially filled line (product chosen, quantity blank)
is rejected with a required-field form error and creates no sale — the
incomplete line is not silently skipped. -/
theorem linea_parcial_invalida_la_venta :
    ventaCreate (⟨[(1, ⟨"A", 5, 10⟩)], [7], [], [], []⟩ : Store) 7
      [⟨false, some 1, some 2⟩, ⟨false, some 1, none⟩]
      = (⟨[(1, ⟨"A", 5, 10⟩)], [7], [], [], []⟩, .invalidForm [.required]) := by
  decide

/-- Witness for C1 at a concrete sale: one line of 3 units at price 5. -/
theorem venta_total_es_suma_subtotales_witness :
    ∃ v, (⟨[(1, ⟨"A", 5, 7⟩)], [7], [⟨1, "VNT-000001", 7, 15⟩],
        [⟨1, 1, 3, 5, 15⟩], []⟩ : Store).ventas.find? (fun w => w.pk == 1) = some v ∧
      v.total = (((⟨[(1, ⟨"A", 5, 7⟩)], [7], [⟨1, "VNT-000001", 7, 15⟩],
        [⟨1, 1, 3, 5, 15⟩], []⟩ : Store).items.filter fun it => it.venta == 1).map
          (·.subtotal)).sum ∧
      ∀ it ∈ (⟨[(1, ⟨"A", 5, 7⟩)], [7], [⟨1, "VNT-000001", 7, 15⟩],
          [⟨1, 1, 3, 5, 15⟩], []⟩ : Store).items.filter fun it => it.venta == 1,
        it.subtotal = it.cantidad * it.precioUnitario ∧
        ∃ p, lookupProducto (⟨[(1, ⟨"A", 5, 10⟩)], [7], [], [], []⟩ : Store).productos
          it.producto = some p ∧ it.precioUnitario = p.precio :=
  venta_total_es_suma_subtotales ⟨[(1, ⟨"A", 5, 10⟩)], [7], [], [], []⟩ 7
    [⟨false, some 1, some 3⟩] _ 1 "VNT-000001" (by decide) (by decide)

/-- Witness for the amended C3 at a concrete insufficient-stock request. -/
theorem stock_insuficiente_invalida_witness :
    ventaCreate (⟨[(1, ⟨"Zapato", 5, 2⟩)], [7], [], [], []⟩ : Store) 7
      [⟨false, some 1, some 5⟩]
      = (⟨[(1, ⟨"Zapato", 5, 2⟩)], [7], [], [], []⟩,
        .invalidForm (formsetErrors ⟨[(1, ⟨"Zapato", 5, 2⟩)], [7], [], [], []⟩
          [⟨false, some 1, some 5⟩])) ∧
    (1 ≤ (5 : Int) → LineError.stockInsuf 2 ∈
      formsetErrors ⟨[(1, ⟨"Zapato", 5, 2⟩)], [7], [], [], []⟩ [⟨false, some 1, some 5⟩]) :=
  stock_insuficiente_invalida ⟨[(1, ⟨"Zapato", 5, 2⟩)], [7], [], [], []⟩ 7
    [⟨false, some 1, some 5⟩] ⟨false, some 1, some 5⟩ 1 5 ⟨"Zapato", 5, 2⟩
    (by decide) rfl rfl rfl (by decide) (by decide)

/-- Witness for C4 on a concrete reachable store and product row. -/
theorem stock_nunca_negativo_witness :
    0 ≤ (((1, ⟨"B", 3, 4⟩) : Nat × Producto)).2.stock :=
  stock_nunca_negativo ⟨[(1, ⟨"B", 3, 4⟩)], [], [], [], []⟩
    (Reach.base _ (by decide)) (1, ⟨"B", 3, 4⟩) (by decide)

/-- Witness for C5: adjust product 2 from stock 8 to target 11. -/
theorem ajuste_stock_exacto_witness :
    lookupProducto (ajusteStock (⟨[(2, ⟨"C", 4, 8⟩)], [], [], [], []⟩ : Store)
      2 11 "inventario" "Sistema").1.productos 2 = some ⟨"C", 4, 11⟩ ∧
    ((11 : Int) ≠ (8 : Int) →
      (ajusteStock (⟨[(2, ⟨"C", 4, 8⟩)], [], [], [], []⟩ : Store)
        2 11 "inventario" "Sistema").2 = .actualizado ∧
      ∃ mov : MovimientoStock,
        (ajusteStock (⟨[(2, ⟨"C", 4, 8⟩)], [], [], [], []⟩ : Store)
          2 11 "inventario" "Sistema").1.movimientos = [] ++ [mov] ∧
        mov.producto = 2 ∧ mov.cantidad = |(11 : Int) - 8| ∧
        mov.tipo = (if (8 : Int) < 11 then TipoMovimiento.entrada else TipoMovimiento.salida)) ∧
    ((11 : Int) = (8 : Int) →
      ajusteStock (⟨[(2, ⟨"C", 4, 8⟩)], [], [], [], []⟩ : Store) 2 11 "inventario" "Sistema"
        = (⟨[(2, ⟨"C", 4, 8⟩)], [], [], [], []⟩, .sinCambio)) :=
  ajuste_stock_exacto ⟨[(2, ⟨"C", 4, 8⟩)], [], [], [], []⟩ 2 ⟨"C", 4, 8⟩ 11
    "inventario" "Sistema" (by decide) (by decide)

/-- Witness for the amended C7 on a store with two sales. -/
theorem codigos_ventas_coexistentes_distintos_witness :
    (⟨[], [], [⟨1, "VNT-000001", 7, 0⟩, ⟨2, "VNT-000002", 7, 0⟩], [], []⟩ : Store).ventas.Pairwise
      (fun a b => a.codigoVenta ≠ b.codigoVenta) :=
  codigos_ventas_coexistentes_distintos _ (Reach.base _ (by decide))

/-- Witness for C8: outbound movement of 3 units from stock 5. -/
theorem movimiento_salida_correcto_witness :
    (((⟨"D", 2, 5⟩ : Producto)).stock < 3 →
      movimientoCreate (⟨[(3, ⟨"D", 2, 5⟩)], [], [], [], []⟩ : Store) 3 .salida 3 "m" "u"
        = (⟨[(3, ⟨"D", 2, 5⟩)], [], [], [], []⟩, .formError "No hay stock suficiente")) ∧
    ((3 : Int) ≤ ((⟨"D", 2, 5⟩ : Producto)).stock →
      (movimientoCreate (⟨[(3, ⟨"D", 2, 5⟩)], [], [], [], []⟩ : Store) 3 .salida 3 "m" "u").2
        = .success ∧
      lookupProducto (movimientoCreate (⟨[(3, ⟨"D", 2, 5⟩)], [], [], [], []⟩ : Store)
        3 .salida 3 "m" "u").1.productos 3 = some ⟨"D", 2, 2⟩ ∧
      (movimientoCreate (⟨[(3, ⟨"D", 2, 5⟩)], [], [], [], []⟩ : Store)
        3 .salida 3 "m" "u").1.movimientos = [] ++ [⟨3, .salida, 3, "m", "u"⟩]) :=
  movimiento_salida_correcto ⟨[(3, ⟨"D", 2, 5⟩)], [], [], [], []⟩ 3 ⟨"D", 2, 5⟩ 3 "m" "u"
    (by decide) (by decide)

/-- Witness for C9: a request whose two lines are both flagged for removal. -/
theorem venta_sin_lineas_rechazada_witness :
    ventaCreate (⟨[(1, ⟨"A", 5, 10⟩)], [9], [], [], []⟩ : Store) 9
      [⟨true, some 1, some 2⟩, ⟨true, none, none⟩]
      = (⟨[(1, ⟨"A", 5, 10⟩)], [9], [], [], []⟩, .ventaVacia) :=
  venta_sin_lineas_rechazada ⟨[(1, ⟨"A", 5, 10⟩)], [9], [], [], []⟩ 9
    [⟨true, some 1, some 2⟩, ⟨true, none, none⟩] (by decide) (by decide) (by decide)

/-- Witness for the amended C10: a blank line between a complete line and
the end of a request is equivalent to omitting it. -/
theorem linea_en_blanco_omitida_witness :
    ventaCreate (⟨[(1, ⟨"A", 5, 10⟩)], [7], [], [], []⟩ : Store) 7
      ([⟨false, some 1, some 2⟩] ++ (⟨false, none, none⟩ : LineInput) :: [])
      = ventaCreate (⟨[(1, ⟨"A", 5, 10⟩)], [7], [], [], []⟩ : Store) 7
        ([⟨false, some 1, some 2⟩] ++ []) :=
  linea_en_blanco_omitida ⟨[(1, ⟨"A", 5, 10⟩)], [7], [], [], []⟩ 7
    [⟨false, some 1, some 2⟩] [] ⟨false, none, none⟩ rfl rfl

end Inventario
